import Mathlib

/-!
Verification of the AIOS monitor hook pipeline: a shallow embedding of the
four hook entry points (`pre_tool_use.py`, `post_tool_use.py`,
`user_prompt_submit.py`, `stop.py`), the context enricher
(`lib/enrich.py`) and the event sender (`lib/send_event.py`).

Python strings are modelled as lists of characters, JSON values as the
inductive `JVal`, Python exceptions as `PyErr`, and the ambient world
(environment variables, current directory, filesystem, network) as oracle
parameters.  Fallible Python code is modelled in the `Except PyErr` monad.
-/

/-- Python strings, modelled as lists of characters (code points). -/
abbrev Str := List Char

/-- JSON-representable values, as produced by Python's `json.load`. -/
inductive JVal where
  | null : JVal
  | bool (b : Bool) : JVal
  | num (n : Int) : JVal
  | str (s : Str) : JVal
  | arr (xs : List JVal) : JVal
  | obj (kvs : List (String × JVal)) : JVal

/-- Python exception classes relevant to the hook pipeline (all subclasses
of `Exception`, hence caught by a bare `except Exception`). -/
inductive PyErr where
  | typeError : PyErr
  | attributeError : PyErr
  | valueError : PyErr
  | keyError : PyErr
  | jsonDecodeError : PyErr
  | netError : PyErr
  | timeoutError : PyErr
  deriving DecidableEq

/-- Model of `d.get(k)` on a Python dict, returning the first binding. -/
def lookupKey (kvs : List (String × JVal)) (k : String) : Option JVal :=
  (kvs.find? (fun p => p.1 == k)).map (fun p => p.2)

/-- Model of `k in d` on a Python dict. -/
def hasKey (kvs : List (String × JVal)) (k : String) : Bool :=
  (kvs.find? (fun p => p.1 == k)).isSome

/-- Model of `d[k] = v` on a Python dict: overwrite in place when the key
exists, append a new binding otherwise. -/
def setKey (kvs : List (String × JVal)) (k : String) (v : JVal) :
    List (String × JVal) :=
  if hasKey kvs k then
    kvs.map (fun p => if p.1 == k then (k, v) else p)
  else
    kvs ++ [(k, v)]

/-- Python truthiness of a JSON value. -/
def jTruthy : JVal → Bool
  | .null => false
  | .bool b => b
  | .num n => n != 0
  | .str s => !s.isEmpty
  | .arr xs => !xs.isEmpty
  | .obj kvs => !kvs.isEmpty

/-- Truthiness of `os.environ.get(v)`: set and non-empty. -/
def envTruthy : Option Str → Bool
  | none => false
  | some s => !s.isEmpty

/-- Truthiness of an optional string (e.g. the result of agent detection). -/
def optStrTruthy : Option Str → Bool
  | none => false
  | some s => !s.isEmpty

/-- The hooks' bounding step for one string: `s[:C] + marker` when
`len(s) > C`, unchanged otherwise. -/
def truncStr (ceiling : Nat) (marker : Str) (s : Str) : Str :=
  if ceiling < s.length then s.take ceiling ++ marker else s

/-! ### Agent detection (`detect_agent_from_prompt`)

`re.search(r'@(dev|architect|qa|pm|po|sm|analyst|devops|aios-master)', prompt.lower())`:
scan positions left to right; at an `@` try the alternation branches in
their listed order against the following text. -/

def roleDev : Str := "dev".toList
def roleArchitect : Str := "architect".toList
def roleQa : Str := "qa".toList
def rolePm : Str := "pm".toList
def rolePo : Str := "po".toList
def roleSm : Str := "sm".toList
def roleAnalyst : Str := "analyst".toList
def roleDevops : Str := "devops".toList
def roleAiosMaster : Str := "aios-master".toList

/-- The alternation branches of the agent pattern, in their listed order. -/
def agentRoles : List Str :=
  [roleDev, roleArchitect, roleQa, rolePm, rolePo, roleSm, roleAnalyst,
   roleDevops, roleAiosMaster]

/-- Try the alternation branches, in order, against the text following an
`@`; first branch that is a prefix wins. -/
def altMatch (rest : Str) : Option Str :=
  if roleDev.isPrefixOf rest then some roleDev
  else if roleArchitect.isPrefixOf rest then some roleArchitect
  else if roleQa.isPrefixOf rest then some roleQa
  else if rolePm.isPrefixOf rest then some rolePm
  else if rolePo.isPrefixOf rest then some rolePo
  else if roleSm.isPrefixOf rest then some roleSm
  else if roleAnalyst.isPrefixOf rest then some roleAnalyst
  else if roleDevops.isPrefixOf rest then some roleDevops
  else if roleAiosMaster.isPrefixOf rest then some roleAiosMaster
  else none

/-- Whether the whole pattern matches at the current position. -/
def matchHere : Str → Option Str
  | [] => none
  | c :: rest => if c = '@' then altMatch rest else none

/-- `re.search` semantics for the agent pattern: leftmost matching
position wins; the alternation order decides within one position. -/
def reSearchAgent : Str → Option Str
  | [] => none
  | c :: rest =>
    match matchHere (c :: rest) with
    | some r => some r
    | none => reSearchAgent rest

/-- Model of `str.lower()` (ASCII case folding suffices for the roles). -/
def pyLower (s : Str) : Str := s.map Char.toLower

/-- `detect_agent_from_prompt` from `lib/enrich.py`. -/
def detect_agent_from_prompt (prompt : Str) : Option Str :=
  reSearchAgent (pyLower prompt)

/-! ### Project detection (`detect_project`) -/

/-- Path components of `pathlib.Path(s)`: split on the separator, dropping
empty and single-dot segments. -/
def pathSegs (s : Str) : List Str :=
  (s.splitOn '/').filter (fun seg => !seg.isEmpty && seg != ['.'])

/-- Model of `pathlib.Path(s).name`: the final path component, or empty. -/
def pathName (s : Str) : Str :=
  (pathSegs s).getLast?.getD []

/-- The fixed marker list checked by `detect_project`, in order. -/
def projectMarkers : List Str :=
  [".git".toList, "package.json".toList, "Cargo.toml".toList,
   "go.mod".toList, "pyproject.toml".toList]

/-- Model of `path / marker`. -/
def pathJoin (base : Str) (seg : Str) : Str := base ++ '/' :: seg

/-- `detect_project` from `lib/enrich.py`; `fsExists` is the filesystem
oracle standing for `Path.exists()` (which does not raise). -/
def detect_project (fsExists : Str → Bool) (cwd : Str) : Str :=
  match projectMarkers.find? (fun m => fsExists (pathJoin cwd m)) with
  | some _ => pathName cwd
  | none => pathName cwd

/-- Spec-side definition for the refinement claim: "the function that
simply takes the directory's base name", i.e. the path's final segment. -/
def specBaseName (p : Str) : Str :=
  (pathSegs p).getLast?.getD []

/-! ### Python `int(...)` parsing (module-level `TIMEOUT_MS`) -/

/-- After the first digit: digits with single underscores between digits. -/
def pyDigitsRest : Str → Bool
  | [] => true
  | '_' :: [] => false
  | '_' :: c :: rest => c.isDigit && pyDigitsRest rest
  | c :: rest => c.isDigit && pyDigitsRest rest

/-- A non-empty run of digits with single underscores between digits. -/
def pyDigits : Str → Bool
  | [] => false
  | c :: rest => c.isDigit && pyDigitsRest rest

/-- Model of `str.strip()` of surrounding whitespace. -/
def pyStrip (s : Str) : Str :=
  ((s.dropWhile Char.isWhitespace).reverse.dropWhile Char.isWhitespace).reverse

/-- Digits of an integer literal with the underscores removed. -/
def pyIntDigits (s : Str) : Str := s.filter (fun c => c != '_')

/-- Value of a run of decimal digits. -/
def digitsVal (s : Str) : Nat :=
  s.foldl (fun acc c => 10 * acc + (c.toNat - '0'.toNat)) 0

/-- Model of Python `int(s)` for base 10: strip whitespace, optional sign,
digits with underscores; raises `ValueError` otherwise. -/
def pyIntOfStr (s : Str) : Except PyErr Int :=
  match pyStrip s with
  | '+' :: rest =>
    if pyDigits rest then .ok (Int.ofNat (digitsVal (pyIntDigits rest)))
    else .error .valueError
  | '-' :: rest =>
    if pyDigits rest then .ok (-(Int.ofNat (digitsVal (pyIntDigits rest))))
    else .error .valueError
  | rest =>
    if pyDigits rest then .ok (Int.ofNat (digitsVal (pyIntDigits rest)))
    else .error .valueError

/-! ### The enricher (`enrich_event`) -/

/-- The ambient world a hook process sees: environment variables, the
process working directory, and the filesystem oracle. -/
structure Sys where
  envGet : String → Option Str
  osCwd : Str
  fsExists : Str → Bool

/-- One `if os.environ.get(var): data[key] = os.environ[var]` step. -/
def envStep (sys : Sys) (var : String) (key : String)
    (kvs : List (String × JVal)) : List (String × JVal) :=
  if envTruthy (sys.envGet var) then
    setKey kvs key (.str ((sys.envGet var).getD []))
  else kvs

/-- The prompt-derived agent step of `enrich_event` (lines 30-34):
`data.get("user_prompt", "")`, truthiness test, `.lower()`-based
detection (raises `AttributeError` on a truthy non-string), and the
guarded assignment `if detected_agent and not data.get("aios_agent")`. -/
def promptAgentStep (kvs : List (String × JVal)) :
    Except PyErr (List (String × JVal)) :=
  if jTruthy ((lookupKey kvs "user_prompt").getD (.str [])) then
    match (lookupKey kvs "user_prompt").getD (.str []) with
    | .str up =>
      if optStrTruthy (detect_agent_from_prompt up) &&
          !jTruthy ((lookupKey kvs "aios_agent").getD .null) then
        .ok (setKey kvs "aios_agent"
          (.str ((detect_agent_from_prompt up).getD [])))
      else
        .ok kvs
    | _ => .error .attributeError
  else .ok kvs

/-- `enrich_event` from `lib/enrich.py`.  Non-dict data raises
(`.get` is missing: `AttributeError`); a non-string `cwd` raises in
`Path(cwd)` (`TypeError`). -/
def enrich_event (sys : Sys) (data : JVal) : Except PyErr JVal :=
  match data with
  | .obj kvs =>
    match (lookupKey kvs "cwd").getD (.str sys.osCwd) with
    | .str cwd =>
      let kvs1 := setKey kvs "project" (.str (detect_project sys.fsExists cwd))
      let kvs2 := envStep sys "AIOS_AGENT" "aios_agent" kvs1
      let kvs3 := envStep sys "AIOS_STORY_ID" "aios_story_id" kvs2
      let kvs4 := envStep sys "AIOS_TASK_ID" "aios_task_id" kvs3
      (promptAgentStep kvs4).map JVal.obj
    | _ => .error .typeError
  | _ => .error .attributeError

/-! ### The event sender (`send_event`) -/

/-- Oracles for the fallible operations inside `send_event`'s `try` block:
serialisation (`json.dumps`) and the HTTP POST (`urllib.request.urlopen`),
each of which may raise any exception. -/
structure NetOps where
  dumps : JVal → Except PyErr Str
  post : Str → Except PyErr Unit

/-- The wire envelope built by `send_event`. -/
def envelope (eventType : String) (now : Int) (data : JVal) : JVal :=
  .obj [("type", .str eventType.toList), ("timestamp", .num now),
        ("data", data)]

/-- The body of `send_event`'s `try` block: serialise the envelope, then
POST it. -/
def sendAttempt (net : NetOps) (eventType : String) (now : Int)
    (data : JVal) : Except PyErr Unit :=
  match net.dumps (envelope eventType now data) with
  | .error e => .error e
  | .ok payload => net.post payload

/-- `send_event` from `lib/send_event.py`: the whole body sits inside
`try ... except Exception: return False`, with `return True` after the
POST. -/
def send_event (net : NetOps) (eventType : String) (now : Int)
    (data : JVal) : Except PyErr Bool :=
  match sendAttempt net eventType now data with
  | .ok _ => .ok true
  | .error _ => .ok false

/-! ### Field bounding in the hook entry points -/

/-- Substring test used to model `needle in haystack` on Python strings. -/
def isSubstrOf (needle hay : Str) : Bool :=
  hay.tails.any (fun t => needle.isPrefixOf t)

/-- Model of `k in data` for arbitrary JSON data (`in` is membership for
dicts and lists, substring search for strings, `TypeError` otherwise). -/
def jContains (k : String) : JVal → Except PyErr Bool
  | .obj kvs => .ok (hasKey kvs k)
  | .arr xs =>
    .ok (xs.any (fun v => match v with | .str s => s == k.toList | _ => false))
  | .str s => .ok (isSubstrOf k.toList s)
  | _ => .error .typeError

/-- Model of `data[k]` with a string key: dict lookup (`KeyError` when
missing), `TypeError` on any other JSON value. -/
def jIndex (k : String) : JVal → Except PyErr JVal
  | .obj kvs =>
    match lookupKey kvs k with
    | some v => .ok v
    | none => .error .keyError
  | _ => .error .typeError

/-- Model of `data[k] = v` (only ever reached on dicts). -/
def jSet (k : String) (v : JVal) : JVal → JVal
  | .obj kvs => .obj (setKey kvs k v)
  | other => other

/-- The three-character truncation marker. -/
def ellipsisMarker : Str := "...".toList

/-- The marker appended to a truncated `tool_result`. -/
def truncatedMarker : Str := "...[truncated]".toList

/-- Bounding of one value inside `tool_input`: strings longer than 500
characters are truncated to 500 plus the marker; everything else is kept. -/
def boundInputValue : JVal → JVal
  | .str v => if 500 < v.length then .str (truncStr 500 ellipsisMarker v) else .str v
  | other => other

/-- The `tool_input` bounding loop shared by the pre and post hooks. -/
def boundToolInput (data : JVal) : Except PyErr JVal := do
  let c ← jContains "tool_input" data
  if c then
    let ti ← jIndex "tool_input" data
    match ti with
    | .obj items =>
      pure (jSet "tool_input"
        (.obj (items.map (fun p => (p.1, boundInputValue p.2)))) data)
    | _ => pure data
  else
    pure data

/-- The `tool_result` bounding step of the post hook. -/
def boundToolResult (data : JVal) : Except PyErr JVal := do
  let c ← jContains "tool_result" data
  if c then
    let r ← jIndex "tool_result" data
    match r with
    | .str s =>
      pure (if 1000 < s.length then
        jSet "tool_result" (.str (truncStr 1000 truncatedMarker s)) data
      else data)
    | _ => pure data
  else
    pure data

/-- Bounding step of `pre_tool_use.py`. -/
def boundPre (data : JVal) : Except PyErr JVal := boundToolInput data

/-- Bounding step of `post_tool_use.py`. -/
def boundPost (data : JVal) : Except PyErr JVal := do
  let d1 ← boundToolResult data
  boundToolInput d1

/-- Bounding step of `user_prompt_submit.py`. -/
def boundUserPrompt (data : JVal) : Except PyErr JVal := do
  let c ← jContains "user_prompt" data
  if c then
    let p ← jIndex "user_prompt" data
    match p with
    | .str s =>
      pure (if 1000 < s.length then
        jSet "user_prompt" (.str (truncStr 1000 ellipsisMarker s)) data
      else data)
    | _ => pure data
  else
    pure data

/-- Bounding step of `stop.py` (none). -/
def boundStop (data : JVal) : Except PyErr JVal := .ok data

/-! ### The hook entry points -/

/-- Outcome of one hook process: the uncaught exception, if any (non-zero
exit), and the send calls made (event-type label with the dispatched
data). -/
structure HookResult where
  err : Option PyErr
  sends : List (String × JVal)

/-- The module-level `TIMEOUT_MS = int(os.environ.get("AIOS_MONITOR_TIMEOUT_MS", "500"))`
evaluated when `lib.send_event` is imported, before stdin is read. -/
def moduleTimeout (sys : Sys) : Except PyErr Int :=
  pyIntOfStr ((sys.envGet "AIOS_MONITOR_TIMEOUT_MS").getD ("500".toList))

/-- The shared `main()` skeleton of the four hooks: import-time module
initialisation, `json.load(sys.stdin)` (the `stdin` argument is the parse
outcome), the hook-specific bounding, enrichment, and the send whose
boolean result is discarded. -/
def runHook (bound : JVal → Except PyErr JVal) (label : String)
    (sys : Sys) (net : NetOps) (now : Int) (stdin : Except PyErr JVal) :
    HookResult :=
  match moduleTimeout sys with
  | .error e => ⟨some e, []⟩
  | .ok _ =>
    match stdin with
    | .error e => ⟨some e, []⟩
    | .ok data =>
      match bound data with
      | .error e => ⟨some e, []⟩
      | .ok data1 =>
        match enrich_event sys data1 with
        | .error e => ⟨some e, []⟩
        | .ok data2 =>
          match send_event net label now data2 with
          | .error e => ⟨some e, []⟩
          | .ok _ => ⟨none, [(label, data2)]⟩

/-- `pre_tool_use.py`'s `main`. -/
def runPreToolUse (sys : Sys) (net : NetOps) (now : Int)
    (stdin : Except PyErr JVal) : HookResult :=
  runHook boundPre "PreToolUse" sys net now stdin

/-- `post_tool_use.py`'s `main`. -/
def runPostToolUse (sys : Sys) (net : NetOps) (now : Int)
    (stdin : Except PyErr JVal) : HookResult :=
  runHook boundPost "PostToolUse" sys net now stdin

/-- `user_prompt_submit.py`'s `main`. -/
def runUserPromptSubmit (sys : Sys) (net : NetOps) (now : Int)
    (stdin : Except PyErr JVal) : HookResult :=
  runHook boundUserPrompt "UserPromptSubmit" sys net now stdin

/-- `stop.py`'s `main`. -/
def runStop (sys : Sys) (net : NetOps) (now : Int)
    (stdin : Except PyErr JVal) : HookResult :=
  runHook boundStop "Stop" sys net now stdin

/-! ### Auxiliary definitions used by the statements -/

/-- The fixed context keys that enrichment may add or overwrite. -/
def ctxKeys : List String :=
  ["project", "aios_agent", "aios_story_id", "aios_task_id"]

/-- The event's `cwd` field, if present, is a string (so `Path(cwd)` does
not raise). -/
def cwdStrOk (kvs : List (String × JVal)) : Bool :=
  match lookupKey kvs "cwd" with
  | none => true
  | some (.str _) => true
  | some _ => false

/-- The event's `user_prompt` field, if present, is a string or falsy (so
`user_prompt.lower()` is never reached on a non-string). -/
def upOkB (kvs : List (String × JVal)) : Bool :=
  match lookupKey kvs "user_prompt" with
  | none => true
  | some (.str _) => true
  | some v => !jTruthy v

/-- The context-merging prefix of `enrich_event`: set `project`, then the
three environment-variable steps, in source order. -/
def enrichCtxSteps (sys : Sys) (cwd : Str) (kvs : List (String × JVal)) :
    List (String × JVal) :=
  envStep sys "AIOS_TASK_ID" "aios_task_id"
    (envStep sys "AIOS_STORY_ID" "aios_story_id"
      (envStep sys "AIOS_AGENT" "aios_agent"
        (setKey kvs "project" (.str (detect_project sys.fsExists cwd)))))

/-- The four hook entry points. -/
def hookMains : List (Sys → NetOps → Int → Except PyErr JVal → HookResult) :=
  [runPreToolUse, runPostToolUse, runUserPromptSubmit, runStop]

/-- A world with no environment variables set. -/
def sysNone : Sys := ⟨fun _ => none, "/tmp/proj".toList, fun _ => false⟩

/-- A world in which `AIOS_AGENT=devops`. -/
def sysDevops : Sys :=
  ⟨fun k => if k = "AIOS_AGENT" then some ("devops".toList) else none,
   "/tmp/proj".toList, fun _ => false⟩

/-- A world in which `AIOS_MONITOR_TIMEOUT_MS=abc`. -/
def sysBadTimeout : Sys :=
  ⟨fun k => if k = "AIOS_MONITOR_TIMEOUT_MS" then some ("abc".toList) else none,
   "/tmp/proj".toList, fun _ => false⟩

/-- A network in which serialisation and the POST succeed. -/
def netOkOps : NetOps := ⟨fun _ => .ok [], fun _ => .ok ()⟩

/-- A network in which the POST fails (unreachable endpoint). -/
def netFailOps : NetOps := ⟨fun _ => .ok [], fun _ => .error .netError⟩

/-! ### Helper lemmas about the dict model -/

lemma find?_map_replace (k : String) (v : JVal) (kvs : List (String × JVal)) :
    List.find? (fun p => p.1 == k)
        (kvs.map (fun p => if p.1 == k then (k, v) else p)) =
      (List.find? (fun p => p.1 == k) kvs).map (fun _ => (k, v)) := by
  rw [List.find?_map]
  have hpred : ((fun p => p.1 == k) ∘ fun p => if p.1 == k then (k, v) else p) =
      (fun p : String × JVal => p.1 == k) := by
    funext p
    by_cases h : p.1 = k <;> simp [h]
  rw [hpred]
  cases hf : List.find? (fun p => p.1 == k) kvs with
  | none => simp
  | some p =>
    have hp := List.find?_some hf
    simp only [beq_iff_eq] at hp
    simp [hp]

lemma find?_map_replace_ne (k k' : String) (v : JVal)
    (kvs : List (String × JVal)) (h : k' ≠ k) :
    List.find? (fun p => p.1 == k')
        (kvs.map (fun p => if p.1 == k then (k, v) else p)) =
      List.find? (fun p => p.1 == k') kvs := by
  rw [List.find?_map]
  have hpred : ((fun p => p.1 == k') ∘ fun p => if p.1 == k then (k, v) else p) =
      (fun p : String × JVal => p.1 == k') := by
    funext p
    by_cases hk : p.1 = k
    · have h1 : (k == k') = false := beq_eq_false_iff_ne.mpr (Ne.symm h)
      have h2 : (p.1 == k') = false := by rw [hk]; exact h1
      simp [hk, h1, h2]
    · simp [hk]
  rw [hpred]
  cases hf : List.find? (fun p => p.1 == k') kvs with
  | none => simp
  | some p =>
    have hp := List.find?_some hf
    simp only [beq_iff_eq] at hp
    have hpk : p.1 ≠ k := by rw [hp]; exact h
    simp [hpk]

lemma lookupKey_setKey_self (kvs : List (String × JVal)) (k : String) (v : JVal) :
    lookupKey (setKey kvs k v) k = some v := by
  unfold setKey
  by_cases h : hasKey kvs k
  · rw [if_pos h]
    unfold lookupKey
    rw [find?_map_replace]
    unfold hasKey at h
    cases hf : List.find? (fun p => p.1 == k) kvs with
    | none => rw [hf] at h; simp at h
    | some p => simp [hf]
  · rw [if_neg h]
    unfold hasKey at h
    unfold lookupKey
    rw [List.find?_append]
    cases hf : List.find? (fun p => p.1 == k) kvs with
    | some p => rw [hf] at h; simp at h
    | none => simp [List.find?_cons]

lemma lookupKey_setKey_ne (kvs : List (String × JVal)) (k k' : String)
    (v : JVal) (h : k' ≠ k) :
    lookupKey (setKey kvs k v) k' = lookupKey kvs k' := by
  unfold setKey
  by_cases hk : hasKey kvs k
  · rw [if_pos hk]
    unfold lookupKey
    rw [find?_map_replace_ne k k' v kvs h]
  · rw [if_neg hk]
    unfold lookupKey
    rw [List.find?_append]
    cases hf : List.find? (fun p => p.1 == k') kvs with
    | some p => simp [hf]
    | none =>
      have h1 : (k == k') = false := beq_eq_false_iff_ne.mpr (Ne.symm h)
      simp [hf, List.find?_cons, h1]

lemma lookupKey_isSome_eq_hasKey (kvs : List (String × JVal)) (k : String) :
    (lookupKey kvs k).isSome = hasKey kvs k := by
  unfold lookupKey hasKey
  cases List.find? (fun p => p.1 == k) kvs <;> simp

lemma lookupKey_setKey_isSome (kvs : List (String × JVal)) (k k' : String)
    (v : JVal) (h : (lookupKey kvs k').isSome = true) :
    (lookupKey (setKey kvs k v) k').isSome = true := by
  by_cases hk : k' = k
  · subst hk; rw [lookupKey_setKey_self]; rfl
  · rw [lookupKey_setKey_ne kvs k k' v hk]; exact h

/-! ### Lemmas about the enrichment steps -/

lemma lookupKey_envStep_ne (sys : Sys) (var key k' : String)
    (kvs : List (String × JVal)) (h : k' ≠ key) :
    lookupKey (envStep sys var key kvs) k' = lookupKey kvs k' := by
  unfold envStep
  split
  · exact lookupKey_setKey_ne kvs key k' _ h
  · rfl

lemma lookupKey_envStep_isSome (sys : Sys) (var key k' : String)
    (kvs : List (String × JVal)) (h : (lookupKey kvs k').isSome = true) :
    (lookupKey (envStep sys var key kvs) k').isSome = true := by
  unfold envStep
  split
  · exact lookupKey_setKey_isSome kvs key k' _ h
  · exact h

lemma envStep_truthy (sys : Sys) (var key : String)
    (kvs : List (String × JVal)) (h : envTruthy (sys.envGet var) = true) :
    lookupKey (envStep sys var key kvs) key =
      some (.str ((sys.envGet var).getD [])) := by
  unfold envStep
  rw [if_pos h, lookupKey_setKey_self]

lemma envStep_falsy (sys : Sys) (var key : String)
    (kvs : List (String × JVal)) (h : envTruthy (sys.envGet var) = false) :
    envStep sys var key kvs = kvs := by
  unfold envStep
  rw [h]
  simp

lemma promptAgentStep_ne (kvs res : List (String × JVal)) (k' : String)
    (hk : k' ≠ "aios_agent") (h : promptAgentStep kvs = .ok res) :
    lookupKey res k' = lookupKey kvs k' := by
  unfold promptAgentStep at h
  split at h
  · split at h
    · split at h
      · rw [Except.ok.injEq] at h
        rw [← h]
        exact lookupKey_setKey_ne kvs "aios_agent" k' _ hk
      · rw [Except.ok.injEq] at h
        rw [← h]
    · exact absurd h (by simp)
  · rw [Except.ok.injEq] at h
    rw [← h]

lemma promptAgentStep_isSome (kvs res : List (String × JVal)) (k' : String)
    (h : promptAgentStep kvs = .ok res)
    (hs : (lookupKey kvs k').isSome = true) :
    (lookupKey res k').isSome = true := by
  unfold promptAgentStep at h
  split at h
  · split at h
    · split at h
      · rw [Except.ok.injEq] at h
        rw [← h]
        exact lookupKey_setKey_isSome kvs "aios_agent" k' _ hs
      · rw [Except.ok.injEq] at h
        rw [← h]; exact hs
    · exact absurd h (by simp)
  · rw [Except.ok.injEq] at h
    rw [← h]; exact hs

lemma promptAgentStep_ok_of_upOk (kvs : List (String × JVal))
    (hu : upOkB kvs = true) :
    ∃ res, promptAgentStep kvs = .ok res := by
  unfold upOkB at hu
  unfold promptAgentStep
  cases hv : lookupKey kvs "user_prompt" with
  | none =>
    simp [hv, jTruthy]
  | some v =>
    rw [hv] at hu
    cases v with
    | str s =>
      simp only [hv, Option.getD_some]
      split
      · split <;> exact ⟨_, rfl⟩
      · exact ⟨_, rfl⟩
    | null => simp [hv, jTruthy]
    | bool b => simp only [hv, Option.getD_some]; rw [if_neg (by simp_all [jTruthy])]; exact ⟨_, rfl⟩
    | num n => simp only [hv, Option.getD_some]; rw [if_neg (by simp_all [jTruthy])]; exact ⟨_, rfl⟩
    | arr xs => simp only [hv, Option.getD_some]; rw [if_neg (by simp_all [jTruthy])]; exact ⟨_, rfl⟩
    | obj o => simp only [hv, Option.getD_some]; rw [if_neg (by simp_all [jTruthy])]; exact ⟨_, rfl⟩

lemma promptAgentStep_agent_truthy (kvs res : List (String × JVal))
    (ha : jTruthy ((lookupKey kvs "aios_agent").getD .null) = true)
    (h : promptAgentStep kvs = .ok res) : res = kvs := by
  unfold promptAgentStep at h
  split at h
  · split at h
    · rw [if_neg (by simp [ha])] at h
      exact (Except.ok.injEq _ _).mp h |>.symm
    · exact absurd h (by simp)
  · exact (Except.ok.injEq _ _).mp h |>.symm

/-! ### Lemmas about enrich_event -/

lemma enrich_event_obj (sys : Sys) (kvs : List (String × JVal)) (cwd : Str)
    (hc : (lookupKey kvs "cwd").getD (.str sys.osCwd) = .str cwd) :
    enrich_event sys (.obj kvs) =
      (promptAgentStep (enrichCtxSteps sys cwd kvs)).map JVal.obj := by
  have hstep : enrich_event sys (.obj kvs) =
      match (lookupKey kvs "cwd").getD (.str sys.osCwd) with
      | .str cwd => (promptAgentStep (enrichCtxSteps sys cwd kvs)).map JVal.obj
      | _ => .error .typeError := rfl
  rw [hstep, hc]

lemma cwdStr_of_ok (sys : Sys) (kvs : List (String × JVal))
    (hc : cwdStrOk kvs = true) :
    ∃ cwd, (lookupKey kvs "cwd").getD (.str sys.osCwd) = .str cwd := by
  unfold cwdStrOk at hc
  cases hv : lookupKey kvs "cwd" with
  | none => exact ⟨sys.osCwd, rfl⟩
  | some v =>
    rw [hv] at hc
    cases v with
    | str s => exact ⟨s, rfl⟩
    | null => simp at hc
    | bool b => simp at hc
    | num n => simp at hc
    | arr xs => simp at hc
    | obj o => simp at hc

lemma lookupKey_ctxSteps_ne (sys : Sys) (cwd : Str)
    (kvs : List (String × JVal)) (k' : String) (h1 : k' ≠ "project")
    (h2 : k' ≠ "aios_agent") (h3 : k' ≠ "aios_story_id")
    (h4 : k' ≠ "aios_task_id") :
    lookupKey (enrichCtxSteps sys cwd kvs) k' = lookupKey kvs k' := by
  unfold enrichCtxSteps
  rw [lookupKey_envStep_ne _ _ _ _ _ h4, lookupKey_envStep_ne _ _ _ _ _ h3,
    lookupKey_envStep_ne _ _ _ _ _ h2, lookupKey_setKey_ne _ _ _ _ h1]

lemma lookupKey_ctxSteps_isSome (sys : Sys) (cwd : Str)
    (kvs : List (String × JVal)) (k' : String)
    (hs : (lookupKey kvs k').isSome = true) :
    (lookupKey (enrichCtxSteps sys cwd kvs) k').isSome = true := by
  unfold enrichCtxSteps
  exact lookupKey_envStep_isSome _ _ _ _ _ (lookupKey_envStep_isSome _ _ _ _ _
    (lookupKey_envStep_isSome _ _ _ _ _ (lookupKey_setKey_isSome _ _ _ _ hs)))

lemma ctxSteps_agent_truthy (sys : Sys) (cwd : Str)
    (kvs : List (String × JVal))
    (h : envTruthy (sys.envGet "AIOS_AGENT") = true) :
    lookupKey (enrichCtxSteps sys cwd kvs) "aios_agent" =
      some (.str ((sys.envGet "AIOS_AGENT").getD [])) := by
  unfold enrichCtxSteps
  rw [lookupKey_envStep_ne _ _ _ _ _ (by decide),
    lookupKey_envStep_ne _ _ _ _ _ (by decide)]
  exact envStep_truthy _ _ _ _ h

lemma ctxSteps_agent_falsy (sys : Sys) (cwd : Str)
    (kvs : List (String × JVal))
    (h : envTruthy (sys.envGet "AIOS_AGENT") = false) :
    lookupKey (enrichCtxSteps sys cwd kvs) "aios_agent" =
      lookupKey kvs "aios_agent" := by
  unfold enrichCtxSteps
  rw [lookupKey_envStep_ne _ _ _ _ _ (by decide),
    lookupKey_envStep_ne _ _ _ _ _ (by decide), envStep_falsy _ _ _ _ h,
    lookupKey_setKey_ne _ _ _ _ (by decide)]

lemma enrich_total (sys : Sys) (kvs : List (String × JVal))
    (hc : cwdStrOk kvs = true) (hu : upOkB kvs = true) :
    ∃ res, enrich_event sys (.obj kvs) = .ok (.obj res) := by
  obtain ⟨cwd, hcwd⟩ := cwdStr_of_ok sys kvs hc
  rw [enrich_event_obj sys kvs cwd hcwd]
  have hu4 : upOkB (enrichCtxSteps sys cwd kvs) = true := by
    unfold upOkB at hu ⊢
    rw [lookupKey_ctxSteps_ne sys cwd kvs _ (by decide) (by decide) (by decide)
      (by decide)]
    exact hu
  obtain ⟨res, hres⟩ := promptAgentStep_ok_of_upOk _ hu4
  exact ⟨res, by rw [hres]; rfl⟩

lemma enrich_obj_cases (sys : Sys) (kvs res : List (String × JVal))
    (h : enrich_event sys (.obj kvs) = .ok (.obj res)) :
    ∃ cwd, (lookupKey kvs "cwd").getD (.str sys.osCwd) = .str cwd ∧
      promptAgentStep (enrichCtxSteps sys cwd kvs) = .ok res := by
  have hstep : enrich_event sys (.obj kvs) =
      match (lookupKey kvs "cwd").getD (.str sys.osCwd) with
      | .str cwd => (promptAgentStep (enrichCtxSteps sys cwd kvs)).map JVal.obj
      | _ => .error .typeError := rfl
  rw [hstep] at h
  cases hv : (lookupKey kvs "cwd").getD (.str sys.osCwd) with
  | str cwd =>
    rw [hv] at h
    refine ⟨cwd, rfl, ?_⟩
    have h' : (promptAgentStep (enrichCtxSteps sys cwd kvs)).map JVal.obj =
        .ok (.obj res) := h
    cases hps : promptAgentStep (enrichCtxSteps sys cwd kvs) with
    | ok r =>
      rw [hps] at h'
      simp only [Except.map, Except.ok.injEq, JVal.obj.injEq] at h'
      rw [h']
    | error e => rw [hps] at h'; simp [Except.map] at h'
  | null => rw [hv] at h; simp at h
  | bool b => rw [hv] at h; simp at h
  | num n => rw [hv] at h; simp at h
  | arr xs => rw [hv] at h; simp at h
  | obj o => rw [hv] at h; simp at h

lemma enrich_lookup_ne (sys : Sys) (kvs res : List (String × JVal))
    (k' : String) (hk : k' ∉ ctxKeys)
    (h : enrich_event sys (.obj kvs) = .ok (.obj res)) :
    lookupKey res k' = lookupKey kvs k' := by
  obtain ⟨cwd, hcwd, hps⟩ := enrich_obj_cases sys kvs res h
  simp only [ctxKeys, List.mem_cons, List.not_mem_nil, or_false, not_or] at hk
  obtain ⟨h1, h2, h3, h4⟩ := hk
  rw [promptAgentStep_ne _ _ _ h2 hps]
  exact lookupKey_ctxSteps_ne sys cwd kvs k' h1 h2 h3 h4

lemma enrich_lookup_isSome (sys : Sys) (kvs res : List (String × JVal))
    (k' : String) (h : enrich_event sys (.obj kvs) = .ok (.obj res))
    (hs : (lookupKey kvs k').isSome = true) :
    (lookupKey res k').isSome = true := by
  obtain ⟨cwd, hcwd, hps⟩ := enrich_obj_cases sys kvs res h
  exact promptAgentStep_isSome _ _ _ hps
    (lookupKey_ctxSteps_isSome _ _ _ _ hs)

lemma enrich_nonobj (sys : Sys) (v : JVal) (h : ∀ kvs, v ≠ .obj kvs) :
    enrich_event sys v = .error .attributeError := by
  cases v with
  | obj kvs => exact absurd rfl (h kvs)
  | null => rfl
  | bool b => rfl
  | num n => rfl
  | str s => rfl
  | arr xs => rfl

/-! ### Lemmas about the bounding steps -/

lemma cwdStrOk_congr (kvs kvs' : List (String × JVal))
    (h : lookupKey kvs' "cwd" = lookupKey kvs "cwd") :
    cwdStrOk kvs' = cwdStrOk kvs := by
  unfold cwdStrOk
  rw [h]

lemma upOkB_congr (kvs kvs' : List (String × JVal))
    (h : lookupKey kvs' "user_prompt" = lookupKey kvs "user_prompt") :
    upOkB kvs' = upOkB kvs := by
  unfold upOkB
  rw [h]

lemma boundToolInput_obj (kvs : List (String × JVal)) :
    ∃ kvs', boundToolInput (.obj kvs) = .ok (.obj kvs') ∧
      ∀ k', k' ≠ "tool_input" → lookupKey kvs' k' = lookupKey kvs k' := by
  cases hv : lookupKey kvs "tool_input" with
  | none =>
    have hk : hasKey kvs "tool_input" = false := by
      rw [← lookupKey_isSome_eq_hasKey, hv]; rfl
    refine ⟨kvs, ?_, fun _ _ => rfl⟩
    simp [boundToolInput, jContains, hk, Bind.bind, Except.bind, Pure.pure,
      Except.pure]
  | some v =>
    have hk : hasKey kvs "tool_input" = true := by
      rw [← lookupKey_isSome_eq_hasKey, hv]; rfl
    cases v with
    | obj items =>
      refine ⟨setKey kvs "tool_input"
        (.obj (items.map (fun p => (p.1, boundInputValue p.2)))), ?_, ?_⟩
      · simp [boundToolInput, jContains, hk, jIndex, hv, jSet, Bind.bind,
          Except.bind, Pure.pure, Except.pure]
      · exact fun k' hne => lookupKey_setKey_ne _ _ _ _ hne
    | null =>
      exact ⟨kvs, by simp [boundToolInput, jContains, hk, jIndex, hv,
        Bind.bind, Except.bind, Pure.pure, Except.pure], fun _ _ => rfl⟩
    | bool b =>
      exact ⟨kvs, by simp [boundToolInput, jContains, hk, jIndex, hv,
        Bind.bind, Except.bind, Pure.pure, Except.pure], fun _ _ => rfl⟩
    | num n =>
      exact ⟨kvs, by simp [boundToolInput, jContains, hk, jIndex, hv,
        Bind.bind, Except.bind, Pure.pure, Except.pure], fun _ _ => rfl⟩
    | str s =>
      exact ⟨kvs, by simp [boundToolInput, jContains, hk, jIndex, hv,
        Bind.bind, Except.bind, Pure.pure, Except.pure], fun _ _ => rfl⟩
    | arr xs =>
      exact ⟨kvs, by simp [boundToolInput, jContains, hk, jIndex, hv,
        Bind.bind, Except.bind, Pure.pure, Except.pure], fun _ _ => rfl⟩

lemma boundToolResult_obj (kvs : List (String × JVal)) :
    ∃ kvs', boundToolResult (.obj kvs) = .ok (.obj kvs') ∧
      ∀ k', k' ≠ "tool_result" → lookupKey kvs' k' = lookupKey kvs k' := by
  cases hv : lookupKey kvs "tool_result" with
  | none =>
    have hk : hasKey kvs "tool_result" = false := by
      rw [← lookupKey_isSome_eq_hasKey, hv]; rfl
    refine ⟨kvs, ?_, fun _ _ => rfl⟩
    simp [boundToolResult, jContains, hk, Bind.bind, Except.bind, Pure.pure,
      Except.pure]
  | some v =>
    have hk : hasKey kvs "tool_result" = true := by
      rw [← lookupKey_isSome_eq_hasKey, hv]; rfl
    cases v with
    | str s =>
      by_cases hl : 1000 < s.length
      · refine ⟨setKey kvs "tool_result" (.str (truncStr 1000 truncatedMarker s)),
          ?_, ?_⟩
        · simp [boundToolResult, jContains, hk, jIndex, hv, jSet, hl,
            Bind.bind, Except.bind, Pure.pure, Except.pure]
        · exact fun k' hne => lookupKey_setKey_ne _ _ _ _ hne
      · refine ⟨kvs, ?_, fun _ _ => rfl⟩
        simp [boundToolResult, jContains, hk, jIndex, hv, hl, Bind.bind,
          Except.bind, Pure.pure, Except.pure]
    | null =>
      exact ⟨kvs, by simp [boundToolResult, jContains, hk, jIndex, hv,
        Bind.bind, Except.bind, Pure.pure, Except.pure], fun _ _ => rfl⟩
    | bool b =>
      exact ⟨kvs, by simp [boundToolResult, jContains, hk, jIndex, hv,
        Bind.bind, Except.bind, Pure.pure, Except.pure], fun _ _ => rfl⟩
    | num n =>
      exact ⟨kvs, by simp [boundToolResult, jContains, hk, jIndex, hv,
        Bind.bind, Except.bind, Pure.pure, Except.pure], fun _ _ => rfl⟩
    | arr xs =>
      exact ⟨kvs, by simp [boundToolResult, jContains, hk, jIndex, hv,
        Bind.bind, Except.bind, Pure.pure, Except.pure], fun _ _ => rfl⟩
    | obj o =>
      exact ⟨kvs, by simp [boundToolResult, jContains, hk, jIndex, hv,
        Bind.bind, Except.bind, Pure.pure, Except.pure], fun _ _ => rfl⟩

lemma boundPost_obj (kvs : List (String × JVal)) :
    ∃ kvs', boundPost (.obj kvs) = .ok (.obj kvs') ∧
      ∀ k', k' ≠ "tool_input" → k' ≠ "tool_result" →
        lookupKey kvs' k' = lookupKey kvs k' := by
  obtain ⟨k1, h1, p1⟩ := boundToolResult_obj kvs
  obtain ⟨k2, h2, p2⟩ := boundToolInput_obj k1
  refine ⟨k2, ?_, fun k' hi hr => (p2 k' hi).trans (p1 k' hr)⟩
  simp [boundPost, h1, h2, Bind.bind, Except.bind]

lemma boundUserPrompt_obj (kvs : List (String × JVal)) :
    ∃ kvs', boundUserPrompt (.obj kvs) = .ok (.obj kvs') ∧
      (∀ k', k' ≠ "user_prompt" → lookupKey kvs' k' = lookupKey kvs k') ∧
      upOkB kvs' = upOkB kvs := by
  cases hv : lookupKey kvs "user_prompt" with
  | none =>
    have hk : hasKey kvs "user_prompt" = false := by
      rw [← lookupKey_isSome_eq_hasKey, hv]; rfl
    exact ⟨kvs, by simp [boundUserPrompt, jContains, hk, Bind.bind,
      Except.bind, Pure.pure, Except.pure], fun _ _ => rfl, rfl⟩
  | some v =>
    have hk : hasKey kvs "user_prompt" = true := by
      rw [← lookupKey_isSome_eq_hasKey, hv]; rfl
    cases v with
    | str s =>
      by_cases hl : 1000 < s.length
      · refine ⟨setKey kvs "user_prompt" (.str (truncStr 1000 ellipsisMarker s)),
          ?_, ?_, ?_⟩
        · simp [boundUserPrompt, jContains, hk, jIndex, hv, jSet, hl,
            Bind.bind, Except.bind, Pure.pure, Except.pure]
        · exact fun k' hne => lookupKey_setKey_ne _ _ _ _ hne
        · unfold upOkB
          rw [lookupKey_setKey_self, hv]
      · refine ⟨kvs, ?_, fun _ _ => rfl, rfl⟩
        simp [boundUserPrompt, jContains, hk, jIndex, hv, hl, Bind.bind,
          Except.bind, Pure.pure, Except.pure]
    | null =>
      exact ⟨kvs, by simp [boundUserPrompt, jContains, hk, jIndex, hv,
        Bind.bind, Except.bind, Pure.pure, Except.pure], fun _ _ => rfl, rfl⟩
    | bool b =>
      exact ⟨kvs, by simp [boundUserPrompt, jContains, hk, jIndex, hv,
        Bind.bind, Except.bind, Pure.pure, Except.pure], fun _ _ => rfl, rfl⟩
    | num n =>
      exact ⟨kvs, by simp [boundUserPrompt, jContains, hk, jIndex, hv,
        Bind.bind, Except.bind, Pure.pure, Except.pure], fun _ _ => rfl, rfl⟩
    | arr xs =>
      exact ⟨kvs, by simp [boundUserPrompt, jContains, hk, jIndex, hv,
        Bind.bind, Except.bind, Pure.pure, Except.pure], fun _ _ => rfl, rfl⟩
    | obj o =>
      exact ⟨kvs, by simp [boundUserPrompt, jContains, hk, jIndex, hv,
        Bind.bind, Except.bind, Pure.pure, Except.pure], fun _ _ => rfl, rfl⟩

lemma boundToolInput_nonobj (v : JVal) (h : ∀ kvs, v ≠ .obj kvs) :
    boundToolInput v = .error PyErr.typeError ∨ boundToolInput v = .ok v := by
  cases v with
  | obj kvs => exact absurd rfl (h kvs)
  | null => left; rfl
  | bool b => left; rfl
  | num n => left; rfl
  | str s =>
    by_cases hc : isSubstrOf ("tool_input".toList) s = true
    all_goals simp at hc
    · left
      simp [boundToolInput, jContains, hc, jIndex, Bind.bind, Except.bind]
    · right
      simp [boundToolInput, jContains, hc, Bind.bind, Except.bind, Pure.pure,
        Except.pure]
  | arr xs =>
    by_cases hc : xs.any
        (fun v => match v with
          | .str s => s == "tool_input".toList
          | _ => false) = true
    all_goals simp at hc
    · left
      simp [boundToolInput, jContains, hc, jIndex, Bind.bind, Except.bind]
    · right
      simp [boundToolInput, jContains, Bind.bind, Except.bind, Pure.pure,
        Except.pure]
      intro x hx hp
      exact absurd hp (by simp [hc x hx])

lemma boundToolResult_nonobj (v : JVal) (h : ∀ kvs, v ≠ .obj kvs) :
    boundToolResult v = .error PyErr.typeError ∨ boundToolResult v = .ok v := by
  cases v with
  | obj kvs => exact absurd rfl (h kvs)
  | null => left; rfl
  | bool b => left; rfl
  | num n => left; rfl
  | str s =>
    by_cases hc : isSubstrOf ("tool_result".toList) s = true
    all_goals simp at hc
    · left
      simp [boundToolResult, jContains, hc, jIndex, Bind.bind, Except.bind]
    · right
      simp [boundToolResult, jContains, hc, Bind.bind, Except.bind, Pure.pure,
        Except.pure]
  | arr xs =>
    by_cases hc : xs.any
        (fun v => match v with
          | .str s => s == "tool_result".toList
          | _ => false) = true
    all_goals simp at hc
    · left
      simp [boundToolResult, jContains, hc, jIndex, Bind.bind, Except.bind]
    · right
      simp [boundToolResult, jContains, Bind.bind, Except.bind, Pure.pure,
        Except.pure]
      intro x hx hp
      exact absurd hp (by simp [hc x hx])

lemma boundPost_nonobj (v : JVal) (h : ∀ kvs, v ≠ .obj kvs) :
    boundPost v = .error PyErr.typeError ∨ boundPost v = .ok v := by
  rcases boundToolResult_nonobj v h with h1 | h1
  · left; simp [boundPost, h1, Bind.bind, Except.bind]
  · rcases boundToolInput_nonobj v h with h2 | h2
    · left; simp [boundPost, h1, h2, Bind.bind, Except.bind]
    · right; simp [boundPost, h1, h2, Bind.bind, Except.bind]

lemma boundUserPrompt_nonobj (v : JVal) (h : ∀ kvs, v ≠ .obj kvs) :
    boundUserPrompt v = .error PyErr.typeError ∨ boundUserPrompt v = .ok v := by
  cases v with
  | obj kvs => exact absurd rfl (h kvs)
  | null => left; rfl
  | bool b => left; rfl
  | num n => left; rfl
  | str s =>
    by_cases hc : isSubstrOf ("user_prompt".toList) s = true
    all_goals simp at hc
    · left
      simp [boundUserPrompt, jContains, hc, jIndex, Bind.bind, Except.bind]
    · right
      simp [boundUserPrompt, jContains, hc, Bind.bind, Except.bind, Pure.pure,
        Except.pure]
  | arr xs =>
    by_cases hc : xs.any
        (fun v => match v with
          | .str s => s == "user_prompt".toList
          | _ => false) = true
    all_goals simp at hc
    · left
      simp [boundUserPrompt, jContains, hc, jIndex, Bind.bind, Except.bind]
    · right
      simp [boundUserPrompt, jContains, Bind.bind, Except.bind, Pure.pure,
        Except.pure]
      intro x hx hp
      exact absurd hp (by simp [hc x hx])

/-! ### Lemmas about send_event and the hook skeleton -/

lemma send_event_ok (net : NetOps) (ty : String) (now : Int) (d : JVal) :
    ∃ b, send_event net ty now d = .ok b := by
  unfold send_event
  cases sendAttempt net ty now d <;> exact ⟨_, rfl⟩

lemma runHook_stdin_error (B : JVal → Except PyErr JVal) (label : String)
    (sys : Sys) (net : NetOps) (now : Int) (e : PyErr) :
    (runHook B label sys net now (.error e)).err.isSome = true ∧
      (runHook B label sys net now (.error e)).sends = [] := by
  unfold runHook
  cases moduleTimeout sys <;> simp

lemma runHook_ok (B : JVal → Except PyErr JVal) (label : String) (sys : Sys)
    (net : NetOps) (now : Int) (kvs kvs' res : List (String × JVal)) (t : Int)
    (ht : moduleTimeout sys = .ok t)
    (hB : B (.obj kvs) = .ok (.obj kvs'))
    (hE : enrich_event sys (.obj kvs') = .ok (.obj res)) :
    runHook B label sys net now (.ok (.obj kvs)) =
      ⟨none, [(label, .obj res)]⟩ := by
  obtain ⟨b, hb⟩ := send_event_ok net label now (.obj res)
  simp [runHook, ht, hB, hE, hb]

lemma runHook_nonobj (B : JVal → Except PyErr JVal) (label : String)
    (sys : Sys) (net : NetOps) (now : Int) (v : JVal)
    (hv : ∀ kvs, v ≠ .obj kvs)
    (hB : B v = .error PyErr.typeError ∨ B v = .ok v) :
    (runHook B label sys net now (.ok v)).err.isSome = true := by
  unfold runHook
  cases hmt : moduleTimeout sys with
  | error e0 => simp
  | ok t =>
    rcases hB with hB | hB
    · simp [hB]
    · simp [hB, enrich_nonobj sys v hv]

lemma runHook_ok_err_none (B : JVal → Except PyErr JVal) (label : String)
    (sys : Sys) (net : NetOps) (now : Int) (kvs : List (String × JVal))
    (t : Int) (ht : moduleTimeout sys = .ok t)
    (hB : ∃ kvs', B (.obj kvs) = .ok (.obj kvs') ∧ cwdStrOk kvs' = true ∧
      upOkB kvs' = true) :
    (runHook B label sys net now (.ok (.obj kvs))).err = none := by
  obtain ⟨kvs', hB, hc, hu⟩ := hB
  obtain ⟨res, hE⟩ := enrich_total sys kvs' hc hu
  rw [runHook_ok B label sys net now kvs kvs' res t ht hB hE]

/-! ### Lemmas about agent detection -/

lemma altMatch_eq_filter_head (rest : Str) :
    altMatch rest = (agentRoles.filter (fun r => r.isPrefixOf rest)).head? := by
  unfold altMatch agentRoles
  simp only [List.filter_cons]
  by_cases h1 : roleDev.isPrefixOf rest = true
  · simp [h1]
  · simp only [h1, Bool.false_eq_true, if_false]
    by_cases h2 : roleArchitect.isPrefixOf rest = true
    · simp [h2, h1]
    · simp only [h2, Bool.false_eq_true, if_false]
      by_cases h3 : roleQa.isPrefixOf rest = true
      · simp [h3, h1, h2]
      · simp only [h3, Bool.false_eq_true, if_false]
        by_cases h4 : rolePm.isPrefixOf rest = true
        · simp [h4, h1, h2, h3]
        · simp only [h4, Bool.false_eq_true, if_false]
          by_cases h5 : rolePo.isPrefixOf rest = true
          · simp [h5, h1, h2, h3, h4]
          · simp only [h5, Bool.false_eq_true, if_false]
            by_cases h6 : roleSm.isPrefixOf rest = true
            · simp [h6, h1, h2, h3, h4, h5]
            · simp only [h6, Bool.false_eq_true, if_false]
              by_cases h7 : roleAnalyst.isPrefixOf rest = true
              · simp [h7, h1, h2, h3, h4, h5, h6]
              · simp only [h7, Bool.false_eq_true, if_false]
                by_cases h8 : roleDevops.isPrefixOf rest = true
                · simp [h8, h1, h2, h3, h4, h5, h6, h7]
                · simp only [h8, Bool.false_eq_true, if_false]
                  by_cases h9 : roleAiosMaster.isPrefixOf rest = true
                  · simp [h9, h1, h2, h3, h4, h5, h6, h7, h8]
                  · simp [h9, h1, h2, h3, h4, h5, h6, h7, h8]

lemma altMatch_ne_devops (rest : Str) : altMatch rest ≠ some roleDevops := by
  unfold altMatch
  split_ifs with h1 h2 h3 h4 h5 h6 h7 h8 h9
  · decide
  · decide
  · decide
  · decide
  · decide
  · decide
  · decide
  · have hdev : roleDev <+: roleDevops := ⟨['o', 'p', 's'], by decide⟩
    have h8p : roleDevops <+: rest := List.isPrefixOf_iff_prefix.mp h8
    exact absurd (List.isPrefixOf_iff_prefix.mpr (hdev.trans h8p)) h1
  · decide
  · simp

lemma reSearch_ne_devops (cs : Str) : reSearchAgent cs ≠ some roleDevops := by
  induction cs with
  | nil => simp [reSearchAgent]
  | cons c rest ih =>
    unfold reSearchAgent
    cases hm : matchHere (c :: rest) with
    | some r =>
      have hr : r ≠ roleDevops := by
        simp only [matchHere] at hm
        by_cases hat : c = '@'
        · rw [if_pos hat] at hm
          intro hcontra
          rw [hcontra] at hm
          exact altMatch_ne_devops rest hm
        · rw [if_neg hat] at hm; cases hm
      simp [hr]
    | none => simpa using ih

lemma matchHere_found (cs : Str) (r : Str) (h : matchHere cs = some r) :
    reSearchAgent cs = some r := by
  cases cs with
  | nil => cases h
  | cons c rest =>
    unfold reSearchAgent
    rw [h]

lemma altMatch_dev_first (rest : Str) (h : roleDev.isPrefixOf rest = true) :
    altMatch rest = some roleDev := by
  unfold altMatch
  rw [if_pos h]

/-! ### Lemmas about truncation in the post hook -/

lemma boundPost_pair (s t : Str) (hs : 1000 < s.length) (ht : 500 < t.length) :
    boundPost (.obj [("tool_result", .str s),
      ("tool_input", .obj [("command", .str t)])]) =
      .ok (.obj [("tool_result", .str (s.take 1000 ++ truncatedMarker)),
        ("tool_input", .obj [("command", .str (t.take 500 ++ ellipsisMarker))])]) := by
  simp [boundPost, boundToolResult, boundToolInput, jContains, jIndex, jSet,
    hasKey, lookupKey, setKey, boundInputValue, truncStr, List.find?, hs, ht,
    Bind.bind, Except.bind, Pure.pure, Except.pure]

/-! ### Lemmas about the module-level timeout -/

lemma runHook_badTimeout (B : JVal → Except PyErr JVal) (label : String)
    (sys : Sys) (net : NetOps) (now : Int) (stdin : Except PyErr JVal)
    (s : Str) (hs : sys.envGet "AIOS_MONITOR_TIMEOUT_MS" = some s)
    (hbad : pyIntOfStr s = .error PyErr.valueError) :
    runHook B label sys net now stdin = ⟨some PyErr.valueError, []⟩ := by
  unfold runHook moduleTimeout
  rw [hs]
  simp only [Option.getD_some]
  rw [hbad]

/-! ### A last lemma about the prompt step -/

lemma promptAgentStep_nodetect (kvs res : List (String × JVal))
    (hd : ∀ s', lookupKey kvs "user_prompt" = some (.str s') →
      detect_agent_from_prompt s' = none)
    (h : promptAgentStep kvs = .ok res) : res = kvs := by
  unfold promptAgentStep at h
  cases hv : lookupKey kvs "user_prompt" with
  | none =>
    rw [hv] at h
    simp only [Option.getD_none] at h
    by_cases htr : jTruthy (.str []) = true
    · exact absurd htr (by simp [jTruthy])
    · rw [if_neg htr] at h
      simp only [Except.ok.injEq] at h
      exact h.symm
  | some v =>
    rw [hv] at h
    simp only [Option.getD_some] at h
    cases v with
    | str s' =>
      have hdet := hd s' hv
      by_cases htr : jTruthy (.str s') = true
      · rw [if_pos htr] at h
        have h' : (if (optStrTruthy (detect_agent_from_prompt s') &&
              !jTruthy ((lookupKey kvs "aios_agent").getD JVal.null)) = true then
              Except.ok (setKey kvs "aios_agent"
                (JVal.str ((detect_agent_from_prompt s').getD [])))
            else Except.ok kvs) = Except.ok res := h
        rw [hdet] at h'
        simp only [optStrTruthy, Bool.false_and, Bool.false_eq_true,
          if_false, Except.ok.injEq] at h'
        exact h'.symm
      · rw [if_neg htr] at h
        simp only [Except.ok.injEq] at h
        exact h.symm
    | null =>
      by_cases htr : jTruthy JVal.null = true
      · exact absurd htr (by simp [jTruthy])
      · rw [if_neg htr] at h
        simp only [Except.ok.injEq] at h
        exact h.symm
    | bool b =>
      by_cases htr : jTruthy (.bool b) = true
      · rw [if_pos htr] at h; cases h
      · rw [if_neg htr] at h
        simp only [Except.ok.injEq] at h
        exact h.symm
    | num n =>
      by_cases htr : jTruthy (.num n) = true
      · rw [if_pos htr] at h; cases h
      · rw [if_neg htr] at h
        simp only [Except.ok.injEq] at h
        exact h.symm
    | arr xs =>
      by_cases htr : jTruthy (.arr xs) = true
      · rw [if_pos htr] at h; cases h
      · rw [if_neg htr] at h
        simp only [Except.ok.injEq] at h
        exact h.symm
    | obj o =>
      by_cases htr : jTruthy (.obj o) = true
      · rw [if_pos htr] at h; cases h
      · rw [if_neg htr] at h
        simp only [Except.ok.injEq] at h
        exact h.symm

lemma enrich_agent_env (sys : Sys) (kvs res : List (String × JVal))
    (henv : envTruthy (sys.envGet "AIOS_AGENT") = true)
    (h : enrich_event sys (.obj kvs) = .ok (.obj res)) :
    lookupKey res "aios_agent" =
      some (.str ((sys.envGet "AIOS_AGENT").getD [])) := by
  obtain ⟨cwd, hcwd, hps⟩ := enrich_obj_cases sys kvs res h
  have hag : lookupKey (enrichCtxSteps sys cwd kvs) "aios_agent" =
      some (.str ((sys.envGet "AIOS_AGENT").getD [])) :=
    ctxSteps_agent_truthy sys cwd kvs henv
  obtain ⟨v', hv'⟩ : ∃ v', sys.envGet "AIOS_AGENT" = some v' := by
    cases he : sys.envGet "AIOS_AGENT" with
    | none => rw [he] at henv; simp [envTruthy] at henv
    | some w => exact ⟨w, rfl⟩
  have hne : v'.isEmpty = false := by
    rw [hv'] at henv
    simpa [envTruthy] using henv
  have htr : jTruthy ((lookupKey (enrichCtxSteps sys cwd kvs)
      "aios_agent").getD .null) = true := by
    rw [hag, hv']
    simp [jTruthy, hne]
  have hres := promptAgentStep_agent_truthy _ res htr hps
  rw [hres]
  exact hag

lemma enrich_agent_none (sys : Sys) (kvs res : List (String × JVal))
    (henv : envTruthy (sys.envGet "AIOS_AGENT") = false)
    (hag0 : lookupKey kvs "aios_agent" = none)
    (hd : ∀ s', lookupKey kvs "user_prompt" = some (.str s') →
      detect_agent_from_prompt s' = none)
    (h : enrich_event sys (.obj kvs) = .ok (.obj res)) :
    lookupKey res "aios_agent" = none := by
  obtain ⟨cwd, hcwd, hps⟩ := enrich_obj_cases sys kvs res h
  have hup : lookupKey (enrichCtxSteps sys cwd kvs) "user_prompt" =
      lookupKey kvs "user_prompt" :=
    lookupKey_ctxSteps_ne sys cwd kvs _ (by decide) (by decide) (by decide)
      (by decide)
  have hres : res = enrichCtxSteps sys cwd kvs :=
    promptAgentStep_nodetect _ _ (fun s' hs' => hd s' (hup.symm.trans hs')) hps
  rw [hres, ctxSteps_agent_falsy sys cwd kvs henv, hag0]

/-! ### Claim theorems -/

/-- C1: `send_event` never raises or propagates an error to its caller:
for every event type, timestamp, event data and network behaviour it
returns `Except.ok` of a boolean, which is `true` exactly when the
serialisation and the HTTP POST both completed, and `false` on any
failure (unserializable data, network error, timeout, DNS failure). -/
theorem c1_send_event_never_raises (net : NetOps) (ty : String) (now : Int)
    (d : JVal) :
    ∃ b, send_event net ty now d = Except.ok b ∧
      (b = true ↔ sendAttempt net ty now d = Except.ok ()) := by
  cases ha : sendAttempt net ty now d with
  | ok u =>
    cases u
    exact ⟨true, by unfold send_event; rw [ha], by simp [ha]⟩
  | error e =>
    exact ⟨false, by unfold send_event; rw [ha], by simp [ha]⟩

/-- Witness for C1: at a network whose POST fails, `send_event` still
returns `Except.ok` of a boolean. -/
theorem c1_witness :
    ∃ b, send_event netFailOps "Stop" 0 (JVal.obj []) = Except.ok b :=
  (c1_send_event_never_raises netFailOps "Stop" 0 (JVal.obj [])).imp
    (fun _ hb => hb.1)

/-- C2: bounding with ceiling C and a fixed marker leaves strings of
length ≤ C unchanged, and maps a string of length > C to exactly its
first C characters followed by the marker, so the result has length
exactly C + the marker's length; in particular the PostToolUse hook maps
a 2000-char `tool_result` to 1000 chars + "...[truncated]" and a
600-char string inside `tool_input` to 500 chars + "...". -/
theorem c2_truncation :
    (∀ (ceiling : Nat) (marker s : Str), s.length ≤ ceiling →
      truncStr ceiling marker s = s) ∧
    (∀ (ceiling : Nat) (marker s : Str), ceiling < s.length →
      truncStr ceiling marker s = s.take ceiling ++ marker ∧
        (truncStr ceiling marker s).length = ceiling + marker.length) ∧
    boundPost (.obj [("tool_result", .str (List.replicate 2000 'a')),
        ("tool_input", .obj [("command", .str (List.replicate 600 'b'))])]) =
      .ok (.obj [("tool_result",
          .str (List.replicate 1000 'a' ++ truncatedMarker)),
        ("tool_input", .obj [("command",
          .str (List.replicate 500 'b' ++ ellipsisMarker))])]) := by
  refine ⟨?_, ?_, ?_⟩
  · intro C m s h
    unfold truncStr
    rw [if_neg (by omega)]
  · intro C m s h
    unfold truncStr
    rw [if_pos h]
    refine ⟨rfl, ?_⟩
    rw [List.length_append, List.length_take]
    omega
  · rw [boundPost_pair (List.replicate 2000 'a') (List.replicate 600 'b')
      (by simp only [List.length_replicate]; omega)
      (by simp only [List.length_replicate]; omega)]
    simp only [List.take_replicate]
    norm_num

/-- Witness for C2 at concrete strings: a 2-char string survives ceiling
5 unchanged, and a 4-char string at ceiling 2 becomes its first 2 chars
plus the marker, with length 2 + the marker length. -/
theorem c2_witness :
    truncStr 5 ellipsisMarker ("ab".toList) = "ab".toList ∧
      (truncStr 2 ellipsisMarker ("abcd".toList) =
        ("abcd".toList).take 2 ++ ellipsisMarker ∧
        (truncStr 2 ellipsisMarker ("abcd".toList)).length =
          2 + ellipsisMarker.length) :=
  ⟨c2_truncation.1 5 ellipsisMarker ("ab".toList) (by decide),
   c2_truncation.2.1 2 ellipsisMarker ("abcd".toList) (by decide)⟩

/-- C3 counterexample: the input `{"cwd": 42}` is a single valid JSON
object, yet the Stop hook raises (`TypeError` from `Path(42)` inside
enrichment), refuting "fails if and only if standard input is not a
single valid JSON object". -/
theorem c3_counterexample :
    (runStop sysNone netOkOps 0
      (Except.ok (JVal.obj [("cwd", JVal.num 42)]))).err =
      some PyErr.typeError := by rfl

/-- C3 (amended): each of the four hooks fails with no send attempted
when standard input is malformed, fails on valid JSON that is not an
object, and — provided the configured timeout parses and the object's
`cwd` (if present) is a string and its `user_prompt` (if present) is a
string or falsy — completes successfully regardless of the network's
behaviour (the send outcome). -/
theorem c3_amended : ∀ run ∈ hookMains,
    ∀ (sys : Sys) (net : NetOps) (now : Int),
    (∀ e : PyErr, (run sys net now (.error e)).err.isSome = true ∧
      (run sys net now (.error e)).sends = []) ∧
    (∀ v : JVal, (∀ kvs, v ≠ .obj kvs) →
      (run sys net now (.ok v)).err.isSome = true) ∧
    (∀ t : Int, moduleTimeout sys = .ok t →
      ∀ kvs : List (String × JVal), cwdStrOk kvs = true → upOkB kvs = true →
        (run sys net now (.ok (.obj kvs))).err = none) := by
  intro run hrun sys net now
  simp only [hookMains, List.mem_cons, List.not_mem_nil, or_false] at hrun
  rcases hrun with h | h | h | h <;> subst h
  · refine ⟨fun e => runHook_stdin_error boundPre "PreToolUse" sys net now e,
      fun v hv => runHook_nonobj boundPre "PreToolUse" sys net now v hv
        (boundToolInput_nonobj v hv),
      fun t ht kvs hc hu =>
        runHook_ok_err_none boundPre "PreToolUse" sys net now kvs t ht ?_⟩
    obtain ⟨kvs', hB, hpres⟩ := boundToolInput_obj kvs
    refine ⟨kvs', hB, ?_, ?_⟩
    · rw [cwdStrOk_congr kvs kvs' (hpres "cwd" (by decide))]; exact hc
    · rw [upOkB_congr kvs kvs' (hpres "user_prompt" (by decide))]; exact hu
  · refine ⟨fun e => runHook_stdin_error boundPost "PostToolUse" sys net now e,
      fun v hv => runHook_nonobj boundPost "PostToolUse" sys net now v hv
        (boundPost_nonobj v hv),
      fun t ht kvs hc hu =>
        runHook_ok_err_none boundPost "PostToolUse" sys net now kvs t ht ?_⟩
    obtain ⟨kvs', hB, hpres⟩ := boundPost_obj kvs
    refine ⟨kvs', hB, ?_, ?_⟩
    · rw [cwdStrOk_congr kvs kvs'
        (hpres "cwd" (by decide) (by decide))]; exact hc
    · rw [upOkB_congr kvs kvs'
        (hpres "user_prompt" (by decide) (by decide))]; exact hu
  · refine ⟨fun e => runHook_stdin_error boundUserPrompt "UserPromptSubmit"
        sys net now e,
      fun v hv => runHook_nonobj boundUserPrompt "UserPromptSubmit" sys net
        now v hv (boundUserPrompt_nonobj v hv),
      fun t ht kvs hc hu => runHook_ok_err_none boundUserPrompt
        "UserPromptSubmit" sys net now kvs t ht ?_⟩
    obtain ⟨kvs', hB, hpres, hup⟩ := boundUserPrompt_obj kvs
    refine ⟨kvs', hB, ?_, ?_⟩
    · rw [cwdStrOk_congr kvs kvs' (hpres "cwd" (by decide))]; exact hc
    · rw [hup]; exact hu
  · exact ⟨fun e => runHook_stdin_error boundStop "Stop" sys net now e,
      fun v hv => runHook_nonobj boundStop "Stop" sys net now v hv
        (Or.inr rfl),
      fun t ht kvs hc hu => runHook_ok_err_none boundStop "Stop" sys net now
        kvs t ht ⟨kvs, rfl, hc, hu⟩⟩

/-- Witness for C3 at a concrete well-typed object input: the Stop hook
completes with no error. -/
theorem c3_witness :
    (runStop sysNone netOkOps 0 (Except.ok (JVal.obj
      [("cwd", JVal.str ("/tmp/proj".toList))]))).err = none :=
  (c3_amended runStop (by simp [hookMains]) sysNone netOkOps 0).2.2 500
    (by rfl) _ (by rfl) (by rfl)

/-- C4: `aios_agent` comes from `AIOS_AGENT` exactly when that variable
is set and non-empty, in which case the prompt-derived agent never
overwrites it (with `AIOS_AGENT=devops` and user_prompt
"@dev please fix this" the result carries "devops"); when the variable
is unset/empty, the event has no `aios_agent`, and no prompt match is
found, `aios_agent` stays unset — prompt detection sets it only on a
match. -/
theorem c4_agent_precedence :
    (∀ (sys : Sys) (kvs res : List (String × JVal)),
      envTruthy (sys.envGet "AIOS_AGENT") = true →
      enrich_event sys (.obj kvs) = .ok (.obj res) →
      lookupKey res "aios_agent" =
        some (.str ((sys.envGet "AIOS_AGENT").getD []))) ∧
    (∀ (sys : Sys) (kvs res : List (String × JVal)),
      envTruthy (sys.envGet "AIOS_AGENT") = false →
      lookupKey kvs "aios_agent" = none →
      (∀ s', lookupKey kvs "user_prompt" = some (.str s') →
        detect_agent_from_prompt s' = none) →
      enrich_event sys (.obj kvs) = .ok (.obj res) →
      lookupKey res "aios_agent" = none) ∧
    enrich_event sysDevops
        (.obj [("user_prompt", .str ("@dev please fix this".toList))]) =
      .ok (.obj [("user_prompt", .str ("@dev please fix this".toList)),
        ("project", .str ("proj".toList)),
        ("aios_agent", .str ("devops".toList))]) :=
  ⟨enrich_agent_env, enrich_agent_none, by rfl⟩

/-- Witness for C4: the environment-sourced agent survives in the
enriched event of the concrete devops/"@dev" scenario. -/
theorem c4_witness :
    lookupKey [("user_prompt", JVal.str ("@dev please fix this".toList)),
      ("project", JVal.str ("proj".toList)),
      ("aios_agent", JVal.str ("devops".toList))] "aios_agent" =
      some (.str ((sysDevops.envGet "AIOS_AGENT").getD [])) :=
  c4_agent_precedence.1 sysDevops
    [("user_prompt", JVal.str ("@dev please fix this".toList))]
    [("user_prompt", JVal.str ("@dev please fix this".toList)),
      ("project", JVal.str ("proj".toList)),
      ("aios_agent", JVal.str ("devops".toList))] (by rfl) (by rfl)

/-- C5 counterexample: the prompt "@architect and @dev" contains two
distinct role tokens, `dev` precedes `architect` in the alternation, yet
the function returns "architect" (the leftmost match in the text), so
the result is not the alternation-first role among those occurring. -/
theorem c5_counterexample :
    detect_agent_from_prompt ("@architect and @dev".toList) =
        some roleArchitect ∧ roleArchitect ≠ roleDev := by
  constructor
  · decide
  · decide

/-- C5 (amended): at any single position the alternation order decides —
the match is the head of the alternation-ordered list of roles matching
there; across positions the leftmost matching position wins (a match at
the current position is the search result); so "@qa then @dev" yields
"qa" even though "dev" is alternation-first. -/
theorem c5_amended :
    (∀ rest : Str, altMatch rest =
      (agentRoles.filter (fun r => r.isPrefixOf rest)).head?) ∧
    (∀ cs r : Str, matchHere cs = some r → reSearchAgent cs = some r) ∧
    detect_agent_from_prompt ("@qa then @dev".toList) = some roleQa :=
  ⟨altMatch_eq_filter_head, matchHere_found, by decide⟩

/-- Witness for C5: a concrete position match is returned by the search. -/
theorem c5_witness : reSearchAgent ("@pm".toList) = some rolePm :=
  c5_amended.2.1 ("@pm".toList) rolePm (by decide)

/-- C6: enrichment is additive — every key of the input mapping is still
present in the result, and every key outside the fixed context keys
(project, aios_agent, aios_story_id, aios_task_id) keeps its original
value. -/
theorem c6_enrichment_additive (sys : Sys) (kvs res : List (String × JVal))
    (h : enrich_event sys (.obj kvs) = .ok (.obj res)) :
    (∀ k, (lookupKey kvs k).isSome = true →
      (lookupKey res k).isSome = true) ∧
    (∀ k, k ∉ ctxKeys → lookupKey res k = lookupKey kvs k) :=
  ⟨fun k hk => enrich_lookup_isSome sys kvs res k h hk,
   fun k hk => enrich_lookup_ne sys kvs res k hk h⟩

/-- Witness for C6 at a concrete event: the host-supplied key survives
enrichment with its value unchanged. -/
theorem c6_witness :
    lookupKey [("session_id", JVal.str ("s1".toList)),
      ("project", JVal.str ("proj".toList))] "session_id" =
      lookupKey [("session_id", JVal.str ("s1".toList))] "session_id" :=
  (c6_enrichment_additive sysNone [("session_id", JVal.str ("s1".toList))]
    [("session_id", JVal.str ("s1".toList)),
      ("project", JVal.str ("proj".toList))] (by rfl)).2
    "session_id" (by decide)

/-- C7 counterexample: on the event mapping `{"cwd": 42}` the enricher
raises (`TypeError` from `Path(42)`), refuting "for every event mapping,
enrich_event completes without raising". -/
theorem c7_counterexample :
    enrich_event sysNone (.obj [("cwd", JVal.num 42)]) =
      .error PyErr.typeError := by rfl

/-- C7 (amended): `enrich_event` completes without raising on every
event mapping whose `cwd` field, if present, is a string and whose
`user_prompt` field, if present, is a string or falsy; absence of
`cwd`, `user_prompt` or any context environment variable is silently
handled. -/
theorem c7_amended (sys : Sys) (kvs : List (String × JVal))
    (hc : cwdStrOk kvs = true) (hu : upOkB kvs = true) :
    ∃ res, enrich_event sys (.obj kvs) = .ok (.obj res) :=
  enrich_total sys kvs hc hu

/-- Witness for C7 at a concrete event with no cwd and no user_prompt. -/
theorem c7_witness :
    ∃ res, enrich_event sysNone
      (.obj [("session_id", JVal.str ("s1".toList))]) = .ok (.obj res) :=
  c7_amended sysNone [("session_id", JVal.str ("s1".toList))] (by rfl)
    (by rfl)

/-- C8: `detect_project` returns the path's final segment whatever the
filesystem says — it is insensitive to the marker-existence oracle and
extensionally equal to the base-name function. -/
theorem c8_detect_project_refines_basename (fsA fsB : Str → Bool)
    (cwd : Str) :
    detect_project fsA cwd = specBaseName cwd ∧
      detect_project fsA cwd = detect_project fsB cwd := by
  constructor
  · unfold detect_project specBaseName pathName
    cases projectMarkers.find? (fun m => fsA (pathJoin cwd m)) <;> rfl
  · unfold detect_project
    cases projectMarkers.find? (fun m => fsA (pathJoin cwd m)) <;>
      cases projectMarkers.find? (fun m => fsB (pathJoin cwd m)) <;> rfl

/-- C9 counterexample: the prompt "@qa use @devops" contains "@devops"
but the function returns "qa", not "dev", refuting "for every prompt
containing @devops the function returns dev". -/
theorem c9_counterexample :
    detect_agent_from_prompt ("@qa use @devops".toList) = some roleQa ∧
      roleQa ≠ roleDev := by
  constructor
  · decide
  · decide

/-- C9 (amended): the function never returns "devops" (at any position
where "devops" matches, its prefix "dev" matches first in the
alternation); whenever "dev" matches at a position the alternation
yields "dev" there; and prompts whose leftmost match is at "@devops" (in
any case) or "@developer" yield "dev". -/
theorem c9_amended :
    (∀ p : Str, detect_agent_from_prompt p ≠ some roleDevops) ∧
    (∀ rest : Str, roleDev.isPrefixOf rest = true →
      altMatch rest = some roleDev) ∧
    detect_agent_from_prompt ("@devops".toList) = some roleDev ∧
    detect_agent_from_prompt ("@DevOps".toList) = some roleDev ∧
    detect_agent_from_prompt ("@developer".toList) = some roleDev :=
  ⟨fun p => reSearch_ne_devops (pyLower p), altMatch_dev_first,
   by decide, by decide, by decide⟩

/-- Witness for C9: "dev" wins at a concrete position where it is a
prefix of the following text. -/
theorem c9_witness : altMatch ("devops and more".toList) = some roleDev :=
  c9_amended.2.1 ("devops and more".toList) (by decide)

/-- C10: if `AIOS_MONITOR_TIMEOUT_MS` is set to a string that is not a
valid integer literal, the module-level `int(...)` raises at import
time, so every hook fails (with `ValueError`) before reading standard
input — uniformly in the stdin contents — and in particular each of the
four hooks exits non-zero in such an environment even on well-formed
JSON input. -/
theorem c10_bad_timeout :
    (∀ (B : JVal → Except PyErr JVal) (label : String) (sys : Sys)
        (net : NetOps) (now : Int) (stdin : Except PyErr JVal) (s : Str),
      sys.envGet "AIOS_MONITOR_TIMEOUT_MS" = some s →
      pyIntOfStr s = Except.error PyErr.valueError →
      runHook B label sys net now stdin = ⟨some PyErr.valueError, []⟩) ∧
    (∀ run ∈ hookMains, ∀ (net : NetOps) (now : Int)
        (stdin : Except PyErr JVal),
      (run sysBadTimeout net now stdin).err = some PyErr.valueError) := by
  refine ⟨runHook_badTimeout, ?_⟩
  intro run hrun net now stdin
  simp only [hookMains, List.mem_cons, List.not_mem_nil, or_false] at hrun
  rcases hrun with h | h | h | h <;> subst h
  · show (runHook boundPre "PreToolUse" sysBadTimeout net now stdin).err =
      some PyErr.valueError
    rw [runHook_badTimeout _ _ sysBadTimeout net now stdin ("abc".toList)
      rfl rfl]
  · show (runHook boundPost "PostToolUse" sysBadTimeout net now stdin).err =
      some PyErr.valueError
    rw [runHook_badTimeout _ _ sysBadTimeout net now stdin ("abc".toList)
      rfl rfl]
  · show (runHook boundUserPrompt "UserPromptSubmit" sysBadTimeout net now
      stdin).err = some PyErr.valueError
    rw [runHook_badTimeout _ _ sysBadTimeout net now stdin ("abc".toList)
      rfl rfl]
  · show (runHook boundStop "Stop" sysBadTimeout net now stdin).err =
      some PyErr.valueError
    rw [runHook_badTimeout _ _ sysBadTimeout net now stdin ("abc".toList)
      rfl rfl]

/-- Witness for C10: the Stop hook, in the bad-timeout environment, on
well-formed JSON input, fails with `ValueError` and attempts no send. -/
theorem c10_witness :
    runHook boundStop "Stop" sysBadTimeout netOkOps 0
        (Except.ok (JVal.obj [])) = ⟨some PyErr.valueError, []⟩ :=
  c10_bad_timeout.1 boundStop "Stop" sysBadTimeout netOkOps 0
    (Except.ok (JVal.obj [])) ("abc".toList) rfl rfl
